import Mathlib

/-
Verification development for the volt-back wallet ledger (src/app.py).

The Python handlers are shallowly embedded as pure functions over an
explicit store state `DB`.  Money amounts are modelled as exact rationals
(ℚ); Python's `round(x, 2)` is modelled as `round2`.  Store calls are
modelled sequentially: a PostgREST `.single()` fetch that matches zero or
more than one row raises `APIError` (the repository itself handles the
`PGRST116` code this way in `verify_user_password`), which the embedding
renders as an `Option`-valued lookup whose `none` branch aborts the
handler with an error result and an unchanged store.
-/

namespace VoltBack

/-- Status of a `manual_payments` row. The code also queries the literal
status string "success" (`.in_('status', ['success', 'completed'])`), so it
is included as a constructor. -/
inductive MPStatus
  | pending
  | completed
  | rejected
  | failed
  | success
deriving DecidableEq

/-- Status of a `transactions` row. -/
inductive TxStatus
  | pending
  | completed
  | rejected
  | failed
deriving DecidableEq

/-- The `transactions.type` values used by the embedded handlers. -/
inductive TxType
  | recharge
  | withdrawal
  | bonusReferralSignup
deriving DecidableEq

/-- A `user_wallets` row. -/
structure Wallet where
  balance : ℚ
  order_income : ℚ
  total_income : ℚ
  total_referral_earnings : ℚ
  pending_referral_bonus : ℚ
  recharged_amount : ℚ
deriving DecidableEq

/-- The part of a `profiles` row read by the embedded handlers. -/
structure Profile where
  referrer_id : Option Nat
deriving DecidableEq

/-- A `manual_payments` row. -/
structure ManualPayment where
  id : Nat
  user_id : Nat
  amount : ℚ
  utr_number : String
  status : MPStatus
  is_credited : Bool
deriving DecidableEq

/-- A `transactions` row. `created_at` is an abstract timestamp. -/
structure Txn where
  id : Nat
  user_id : Nat
  amount : ℚ
  fee : ℚ
  type : TxType
  status : TxStatus
  created_at : Nat
  payment_gateway_id : Option String
deriving DecidableEq

/-- A `commissions` audit row. -/
structure CommissionLog where
  referrer_id : Nat
  referred_user_id : Nat
  commission_amount : ℚ
  investment_amount : ℚ
deriving DecidableEq

/-- The store state: one wallet and at most one profile per user id,
plus the three row lists. -/
structure DB where
  wallets : Nat → Option Wallet
  profiles : Nat → Option Profile
  manual_payments : List ManualPayment
  transactions : List Txn
  commissions : List CommissionLog

/-- Row-level wallet update: `update(...).eq('user_id', uid)` applies the
new values only when the row exists. -/
def DB.updateWallet (db : DB) (uid : Nat) (f : Wallet → Wallet) : DB :=
  { db with wallets := fun u => if u = uid then (db.wallets u).map f else db.wallets u }

/-- Python's `round(q, 2)`, idealized over ℚ (the embedded code and the
claims use this same function, so float tie-breaking never matters for
the theorems below, which avoid ties). -/
def round2 (q : ℚ) : ℚ := (round (q * 100) : ℤ) / 100

/-- Modelled from the spec: the store-side RPC
`increment_referral_commission(p_user_id, p_amount)` is not in src/; per
the spec (§4.2, §6) it atomically adds the commission to the referrer's
`total_referral_earnings` and `order_income` in one row-level increment
and reports success (HTTP 204). -/
def increment_referral_commission (db : DB) (rid : Nat) (c : ℚ) : DB :=
  db.updateWallet rid fun w =>
    { w with
      total_referral_earnings := w.total_referral_earnings + c
      order_income := w.order_income + c }

/-- Modelled from the spec: the store-side RPC
`increment_recharged_amount(p_user_id, p_amount)` is not in src/; per
the spec (§4.1, §6) it atomically performs `recharged_amount += amount`
on the user's wallet row. -/
def increment_recharged_amount (db : DB) (uid : Nat) (a : ℚ) : DB :=
  db.updateWallet uid fun w => { w with recharged_amount := w.recharged_amount + a }

/-- The referral-commission block shared verbatim by
`admin_verify_manual_payment` (app.py:844-877) and
`verify_razorpay_payment` (app.py:1002-1047): look up `referrer_id` for
`uid`; when present, credit `amount * 0.10` through the commission RPC
and append one `commissions` row.  A failed profile lookup raises inside
the inner `try` and is swallowed, leaving the store unchanged, which
coincides with the `none` branches. -/
def commission_cascade (db : DB) (uid : Nat) (amount : ℚ) : DB :=
  match db.profiles uid with
  | none => db
  | some p =>
    match p.referrer_id with
    | none => db
    | some rid =>
      let commission := amount * (10 / 100 : ℚ)
      let db1 := increment_referral_commission db rid commission
      { db1 with
          commissions := db1.commissions ++
            [{ referrer_id := rid
               referred_user_id := uid
               commission_amount := commission
               investment_amount := amount }] }

/-- `update({'status': 'completed', 'is_credited': True}).eq('id', i)` on
`manual_payments` (app.py:838-841). -/
def creditManualPayment (db : DB) (i : Nat) : DB :=
  { db with
      manual_payments := db.manual_payments.map fun m =>
        if m.id = i then { m with status := MPStatus.completed, is_credited := true } else m }

/-- `update({'status': 'completed'}).eq('id', i)` on `manual_payments`
(app.py:897-900). -/
def completeManualPayment (db : DB) (i : Nat) : DB :=
  { db with
      manual_payments := db.manual_payments.map fun m =>
        if m.id = i then { m with status := MPStatus.completed } else m }

/-- The body of the `for payment_data in response.data` loop of
`admin_verify_manual_payment` (app.py:825-901), folded over the records
fetched once at the start; the loop reads each record's fields from that
initial fetch, and `first` is the `first_payment_processed` flag. -/
def processManualRecords : DB → Bool → List ManualPayment → DB
  | db, _, [] => db
  | db, first, r :: rest =>
    if r.is_credited then
      processManualRecords db first rest
    else if first then
      processManualRecords (completeManualPayment db r.id) first rest
    else
      let db1 := creditManualPayment db r.id
      let db2 := commission_cascade db1 r.user_id r.amount
      let db3 := increment_recharged_amount db2 r.user_id r.amount
      processManualRecords db3 true rest

/-- The fetch `eq('utr_number', utr).eq('status', 'pending')` of
app.py:812-816. -/
def pendingForUtr (db : DB) (utr : String) : List ManualPayment :=
  db.manual_payments.filter fun r =>
    decide (r.utr_number = utr ∧ r.status = MPStatus.pending)

/-- `admin_verify_manual_payment` (app.py:796-910): result is
(success flag, new store).  An empty pending set returns the 404 branch
with the store untouched. -/
def admin_verify_manual_payment (db : DB) (utr : String) : Bool × DB :=
  let grp := pendingForUtr db utr
  if grp.isEmpty then (false, db)
  else (true, processManualRecords db false grp)

/-- `update({'status': 'failed', ...}).eq('payment_gateway_id', orderId)`
on `transactions` (app.py:1081, 1085). -/
def markTxnsFailed (db : DB) (orderId : String) : DB :=
  { db with
      transactions := db.transactions.map fun t =>
        if t.payment_gateway_id = some orderId then { t with status := TxStatus.failed } else t }

/-- `update({'status': 'completed', 'payment_gateway_id': payId})
.eq('payment_gateway_id', orderId)` on `transactions` (app.py:1064-1067). -/
def completeTxns (db : DB) (orderId payId : String) : DB :=
  { db with
      transactions := db.transactions.map fun t =>
        if t.payment_gateway_id = some orderId then
          { t with status := TxStatus.completed, payment_gateway_id := some payId }
        else t }

/-- `verify_razorpay_payment` (app.py:976-1086).  `sigOk` is the outcome
of `verify_payment_signature`; when it is false the
`SignatureVerificationError` handler marks the matching transactions
failed and returns a failure result.  On the success path the commission
cascade runs, then the recharge RPC, then the pending transaction is
completed; the final `.single()` wallet fetch (app.py:1073) raises when
the wallet row is absent, landing in the generic handler that marks the
transactions failed and returns a failure result. -/
def verify_razorpay_payment (db : DB) (orderId payId : String) (amount : ℚ)
    (uid : Nat) (sigOk : Bool) : Bool × DB :=
  if sigOk then
    let db1 := commission_cascade db uid amount
    let db2 := increment_recharged_amount db1 uid amount
    let db3 := completeTxns db2 orderId payId
    match db3.wallets uid with
    | some _ => (true, db3)
    | none => (false, markTxnsFailed db3 orderId)
  else
    (false, markTxnsFailed db orderId)

/-- `claim_referral_bonus` (app.py:590-664).  The wallet `.single()`
fetch failing, or `pending_referral_bonus <= 0`, rejects with the store
unchanged; otherwise the four wallet fields are written from the fetched
values, the claim transaction is appended, and success is returned. -/
def claim_referral_bonus (db : DB) (uid newTid now : Nat) : Bool × DB :=
  match db.wallets uid with
  | none => (false, db)
  | some w =>
    if w.pending_referral_bonus ≤ 0 then (false, db)
    else
      let p := w.pending_referral_bonus
      let db1 := db.updateWallet uid fun w0 =>
        { w0 with
          balance := w.balance + p
          pending_referral_bonus := 0
          total_referral_earnings := w.total_referral_earnings + p
          order_income := w.order_income + p }
      (true,
        { db1 with
            transactions := db1.transactions ++
              [{ id := newTid
                 user_id := uid
                 amount := p
                 fee := 0
                 type := TxType.bonusReferralSignup
                 status := TxStatus.completed
                 created_at := now
                 payment_gateway_id := none }] })

/-- The daily-limit query of app.py:1343: withdrawals of `uid` created
after the start of the current UTC day. -/
def todaysWithdrawals (db : DB) (uid startOfDay : Nat) : List Txn :=
  db.transactions.filter fun t =>
    decide (t.user_id = uid ∧ t.type = TxType.withdrawal ∧ startOfDay < t.created_at)

/-- The investment-eligibility query of app.py:1350-1355: a
`manual_payments` row of `uid` with status in {success, completed}. -/
def hasInvestment (db : DB) (uid : Nat) : Bool :=
  db.manual_payments.any fun m =>
    decide (m.user_id = uid ∧ (m.status = MPStatus.success ∨ m.status = MPStatus.completed))

/-- `handle_withdrawal_request` (app.py:1324-1434).  `txInsertOk` models
whether the `transactions` insert call returns data (app.py:1400-1402);
when it does not, the compensating wallet write of app.py:1405 restores
the fetched `order_income` before the error is returned. -/
def handle_withdrawal_request (db : DB) (uid : Nat) (amount : ℚ)
    (startOfDay now newTid : Nat) (txInsertOk : Bool) : Bool × DB :=
  if amount ≤ 0 then (false, db)
  else if 2 ≤ (todaysWithdrawals db uid startOfDay).length then (false, db)
  else if hasInvestment db uid then
    match db.wallets uid with
    | none => (false, db)
    | some w =>
      let withdrawal_fee := round2 (amount * (12 / 100 : ℚ))
      let total_amount_to_deduct := round2 amount
      if w.order_income < total_amount_to_deduct then (false, db)
      else
        let new_order_income := w.order_income - total_amount_to_deduct
        let db1 := db.updateWallet uid fun w0 => { w0 with order_income := new_order_income }
        if txInsertOk then
          (true,
            { db1 with
                transactions := db1.transactions ++
                  [{ id := newTid
                     user_id := uid
                     amount := total_amount_to_deduct
                     fee := withdrawal_fee
                     type := TxType.withdrawal
                     status := TxStatus.pending
                     created_at := now
                     payment_gateway_id := none }] })
        else
          (false, db1.updateWallet uid fun w0 => { w0 with order_income := w.order_income })
  else (false, db)

/-- The `.single()` fetch `eq('id', tid)` of app.py:114-118: some row
only when exactly one row matches, otherwise the call raises. -/
def findTxnSingle (db : DB) (tid : Nat) : Option Txn :=
  match db.transactions.filter fun t => decide (t.id = tid) with
  | [t] => some t
  | _ => none

/-- `update(update_payload).eq('id', tid)` on `transactions`
(app.py:144-147), restricted to the status field the claims observe. -/
def setTxnStatus (db : DB) (tid : Nat) (s : TxStatus) : DB :=
  { db with
      transactions := db.transactions.map fun t =>
        if t.id = tid then { t with status := s } else t }

/-- `update_withdrawal_status_logic` (app.py:89-158).  A status outside
{completed, rejected, failed} is rejected.  For rejected/failed the
transaction and then the wallet are fetched with `.single()`; either
fetch raising (zero matching rows) aborts through the outer handler with
the store unchanged.  Otherwise the refund writes the fetched balance
plus the transaction amount, the status update runs, and success is
reported exactly when the update matched a row. -/
def update_withdrawal_status_logic (db : DB) (tid : Nat) (newStatus : TxStatus) : Bool × DB :=
  if newStatus = TxStatus.pending then (false, db)
  else
    let refunded : Option DB :=
      if newStatus = TxStatus.rejected ∨ newStatus = TxStatus.failed then
        match findTxnSingle db tid with
        | none => none
        | some t =>
          match db.wallets t.user_id with
          | none => none
          | some w =>
            some (db.updateWallet t.user_id fun w0 => { w0 with balance := w.balance + t.amount })
      else some db
    match refunded with
    | none => (false, db)
    | some db1 =>
      (db1.transactions.any fun t => decide (t.id = tid), setTxnStatus db1 tid newStatus)

/-- The per-row effect of the `admin_verify_manual_payment` loop on the
`manual_payments` table: the loop only ever issues `update ... eq('id', _)`
calls, so its net effect on the table is a pointwise map, computed here by
replaying the loop over the initially fetched records `l`. -/
def procFun : List ManualPayment → Bool → ManualPayment → ManualPayment
  | [], _, m => m
  | r :: rest, first, m =>
    if r.is_credited then procFun rest first m
    else if first then
      procFun rest first (if m.id = r.id then { m with status := MPStatus.completed } else m)
    else
      procFun rest true
        (if m.id = r.id then { m with status := MPStatus.completed, is_credited := true } else m)

/-- A freshly provisioned wallet: every field zero. -/
def zeroWallet : Wallet := ⟨0, 0, 0, 0, 0, 0⟩

/-- Store for the C1 counterexample: user 5 has a zero wallet, no
referrer, and one pending Razorpay recharge transaction for order
"ord1" over 100. -/
def dbC1 : DB :=
  { wallets := fun u => if u = 5 then some zeroWallet else none
    profiles := fun _ => none
    manual_payments := []
    transactions := [⟨1, 5, 100, 0, TxType.recharge, TxStatus.pending, 0, some "ord1"⟩]
    commissions := [] }

/-- Store for the C2 counterexample: two pending manual payments share
UTR "UTR2" for user 7; the first is already flagged `is_credited`. -/
def dbC2 : DB :=
  { wallets := fun u => if u = 7 then some zeroWallet else none
    profiles := fun _ => none
    manual_payments :=
      [⟨1, 7, 100, "UTR2", MPStatus.pending, true⟩,
       ⟨2, 7, 100, "UTR2", MPStatus.pending, false⟩]
    transactions := []
    commissions := [] }

/-- Store for the C5 counterexample: user 3 holds order_income 10, has a
completed manual payment (eligibility), and no withdrawals today. -/
def dbC5 : DB :=
  { wallets := fun u => if u = 3 then some { zeroWallet with order_income := 10 } else none
    profiles := fun _ => none
    manual_payments := [⟨1, 3, 500, "UTRX", MPStatus.completed, true⟩]
    transactions := []
    commissions := [] }

/-- Store for the C7 counterexample: a pending withdrawal of 50 by user
4 whose wallet holds balance 0 and order_income 5. -/
def dbC7 : DB :=
  { wallets := fun u => if u = 4 then some { zeroWallet with order_income := 5 } else none
    profiles := fun _ => none
    manual_payments := []
    transactions := [⟨9, 4, 50, 6, TxType.withdrawal, TxStatus.pending, 0, none⟩]
    commissions := [] }

/-- Store for the C8 counterexample: a withdrawal of 50 by user 4 that
was already resolved to the terminal status rejected (and refunded, the
wallet balance standing at 100). -/
def dbC8 : DB :=
  { wallets := fun u => if u = 4 then some { zeroWallet with balance := 100 } else none
    profiles := fun _ => none
    manual_payments := []
    transactions := [⟨9, 4, 50, 6, TxType.withdrawal, TxStatus.rejected, 0, none⟩]
    commissions := [] }

/-- Store for the C9 witness: a pending withdrawal of user 4 whose
wallet row is absent. -/
def dbC9 : DB :=
  { wallets := fun _ => none
    profiles := fun _ => none
    manual_payments := []
    transactions := [⟨9, 4, 50, 6, TxType.withdrawal, TxStatus.pending, 0, none⟩]
    commissions := [] }

/-- Store for the C1 witness: two pending, uncredited duplicates of UTR
"U1" by user 7, whose wallet exists. -/
def dbW1 : DB :=
  { wallets := fun u => if u = 7 then some zeroWallet else none
    profiles := fun _ => none
    manual_payments :=
      [⟨1, 7, 100, "U1", MPStatus.pending, false⟩,
       ⟨2, 7, 100, "U1", MPStatus.pending, false⟩]
    transactions := []
    commissions := [] }

/-- Store for the C3 witness: user 2 was referred by user 1; both have
wallets; one pending uncredited manual payment of 1000 by user 2. -/
def dbW3 : DB :=
  { wallets := fun u => if u = 1 ∨ u = 2 then some zeroWallet else none
    profiles := fun u => if u = 2 then some ⟨some 1⟩ else (if u = 1 then some ⟨none⟩ else none)
    manual_payments := [⟨1, 2, 1000, "U3", MPStatus.pending, false⟩]
    transactions := []
    commissions := [] }

/-- Store for the C4 witness: user 6 holds a pending referral bonus of
10 on an otherwise zero wallet. -/
def dbW4 : DB :=
  { wallets := fun u => if u = 6 then some { zeroWallet with pending_referral_bonus := 10 } else none
    profiles := fun _ => none
    manual_payments := []
    transactions := []
    commissions := [] }

/-- Store for the C5/C6 witnesses: user 3 holds order_income 500 and is
eligible to withdraw. -/
def dbW5 : DB :=
  { wallets := fun u => if u = 3 then some { zeroWallet with order_income := 500 } else none
    profiles := fun _ => none
    manual_payments := [⟨1, 3, 500, "UTRX", MPStatus.completed, true⟩]
    transactions := []
    commissions := [] }

theorem updateWallet_wallets (db : DB) (uid : Nat) (f : Wallet → Wallet) (v : Nat) :
    (db.updateWallet uid f).wallets v = if v = uid then (db.wallets v).map f else db.wallets v := by
  simp [DB.updateWallet]

theorem updateWallet_map_proj {α : Type} (db : DB) (uid : Nat) (f : Wallet → Wallet)
    (g : Wallet → α) (hf : ∀ w, g (f w) = g w) (v : Nat) :
    ((db.updateWallet uid f).wallets v).map g = (db.wallets v).map g := by
  rw [updateWallet_wallets]
  by_cases hv : v = uid
  · rw [if_pos hv]
    cases db.wallets v <;> simp [hf]
  · rw [if_neg hv]

theorem commission_cascade_manual_payments (db : DB) (u : Nat) (a : ℚ) :
    (commission_cascade db u a).manual_payments = db.manual_payments := by
  unfold commission_cascade
  rcases db.profiles u with _ | ⟨_ | rid⟩ <;> rfl

theorem commission_cascade_transactions (db : DB) (u : Nat) (a : ℚ) :
    (commission_cascade db u a).transactions = db.transactions := by
  unfold commission_cascade
  rcases db.profiles u with _ | ⟨_ | rid⟩ <;> rfl

theorem commission_cascade_recharged (db : DB) (u : Nat) (a : ℚ) (v : Nat) :
    ((commission_cascade db u a).wallets v).map (fun w => w.recharged_amount)
      = (db.wallets v).map fun w => w.recharged_amount := by
  unfold commission_cascade
  rcases db.profiles u with _ | ⟨_ | rid⟩
  · rfl
  · rfl
  · exact updateWallet_map_proj db rid
      (fun w =>
        { w with
          total_referral_earnings := w.total_referral_earnings + a * (10 / 100)
          order_income := w.order_income + a * (10 / 100) })
      (fun w => w.recharged_amount) (fun w => rfl) v

theorem increment_recharged_amount_self (db : DB) (uid : Nat) (a : ℚ) :
    ((increment_recharged_amount db uid a).wallets uid).map (fun w => w.recharged_amount)
      = ((db.wallets uid).map fun w => w.recharged_amount).map fun q => q + a := by
  unfold increment_recharged_amount
  rw [updateWallet_wallets, if_pos rfl]
  cases db.wallets uid <;> simp

theorem increment_recharged_amount_proj {α : Type} (db : DB) (uid : Nat) (a : ℚ)
    (g : Wallet → α) (hg : ∀ w q, g { w with recharged_amount := q } = g w) (v : Nat) :
    ((increment_recharged_amount db uid a).wallets v).map g = (db.wallets v).map g := by
  unfold increment_recharged_amount
  exact updateWallet_map_proj db uid _ g (fun w => hg w _) v

theorem increment_recharged_amount_commissions (db : DB) (uid : Nat) (a : ℚ) :
    (increment_recharged_amount db uid a).commissions = db.commissions := rfl

theorem increment_recharged_amount_manual_payments (db : DB) (uid : Nat) (a : ℚ) :
    (increment_recharged_amount db uid a).manual_payments = db.manual_payments := rfl

theorem pmr_true_wallets (l : List ManualPayment) (db : DB) :
    (processManualRecords db true l).wallets = db.wallets := by
  induction l generalizing db with
  | nil => rfl
  | cons r rest ih =>
    by_cases hc : r.is_credited = true
    · simp [processManualRecords, hc, ih]
    · simp only [Bool.not_eq_true] at hc
      simp [processManualRecords, hc, ih, completeManualPayment]

theorem pmr_true_commissions (l : List ManualPayment) (db : DB) :
    (processManualRecords db true l).commissions = db.commissions := by
  induction l generalizing db with
  | nil => rfl
  | cons r rest ih =>
    by_cases hc : r.is_credited = true
    · simp [processManualRecords, hc, ih]
    · simp only [Bool.not_eq_true] at hc
      simp [processManualRecords, hc, ih, completeManualPayment]

theorem pmr_credit_head (db : DB) (r : ManualPayment) (rest : List ManualPayment)
    (hr : r.is_credited = false) :
    processManualRecords db false (r :: rest)
      = processManualRecords
          (increment_recharged_amount
            (commission_cascade (creditManualPayment db r.id) r.user_id r.amount)
            r.user_id r.amount)
          true rest := by
  simp [processManualRecords, hr]

theorem pmr_skip_credited (pre l : List ManualPayment) (db : DB)
    (h : ∀ x ∈ pre, x.is_credited = true) :
    processManualRecords db false (pre ++ l) = processManualRecords db false l := by
  induction pre with
  | nil => rfl
  | cons r rest ih =>
    have hr : r.is_credited = true := h r (by simp)
    simp only [List.cons_append, processManualRecords, hr, if_pos]
    exact ih fun x hx => h x (by simp [hx])

theorem pmr_manual_payments (l : List ManualPayment) (first : Bool) (db : DB) :
    (processManualRecords db first l).manual_payments
      = db.manual_payments.map (procFun l first) := by
  induction l generalizing db first with
  | nil => simp [processManualRecords, procFun]
  | cons r rest ih =>
    by_cases hc : r.is_credited = true
    · rw [show processManualRecords db first (r :: rest) = processManualRecords db first rest by
        simp [processManualRecords, hc]]
      rw [ih]
      congr 1
      funext m
      simp [procFun, hc]
    · simp only [Bool.not_eq_true] at hc
      cases first with
      | true =>
        rw [show processManualRecords db true (r :: rest)
              = processManualRecords (completeManualPayment db r.id) true rest by
            simp [processManualRecords, hc]]
        rw [ih]
        show (db.manual_payments.map fun m =>
            if m.id = r.id then { m with status := MPStatus.completed } else m).map
              (procFun rest true) = _
        rw [List.map_map]
        congr 1
        funext m
        simp [procFun, hc, Function.comp]
      | false =>
        rw [pmr_credit_head db r rest hc, ih,
          increment_recharged_amount_manual_payments, commission_cascade_manual_payments]
        show (db.manual_payments.map fun m =>
            if m.id = r.id then
              { m with status := MPStatus.completed, is_credited := true } else m).map
              (procFun rest true) = _
        rw [List.map_map]
        congr 1
        funext m
        simp [procFun, hc, Function.comp]

theorem procFun_utr (l : List ManualPayment) (first : Bool) (m : ManualPayment) :
    (procFun l first m).utr_number = m.utr_number := by
  induction l generalizing first m with
  | nil => rfl
  | cons r rest ih =>
    by_cases hc : r.is_credited = true
    · simp [procFun, hc, ih]
    · simp only [Bool.not_eq_true] at hc
      by_cases him : m.id = r.id <;> cases first <;> simp [procFun, hc, him, ih]

theorem procFun_status (l : List ManualPayment) (first : Bool) (m : ManualPayment) :
    (procFun l first m).status = m.status ∨ (procFun l first m).status = MPStatus.completed := by
  induction l generalizing first m with
  | nil => left; rfl
  | cons r rest ih =>
    by_cases hc : r.is_credited = true
    · simpa [procFun, hc] using ih first m
    · simp only [Bool.not_eq_true] at hc
      by_cases him : m.id = r.id
      · cases first <;> simp only [procFun, hc, him, if_true, if_false, Bool.false_eq_true] <;>
          [rcases ih true { m with status := MPStatus.completed, is_credited := true } with h | h;
           rcases ih true { m with status := MPStatus.completed } with h | h] <;>
          simp_all
      · cases first <;> simp only [procFun, hc, him, if_true, if_false, Bool.false_eq_true] <;>
          simp [ih]

theorem procFun_keeps_completed (l : List ManualPayment) (first : Bool) (m : ManualPayment)
    (h : m.status = MPStatus.completed) :
    (procFun l first m).status = MPStatus.completed := by
  rcases procFun_status l first m with h2 | h2
  · rw [h2, h]
  · exact h2

theorem procFun_completes (l : List ManualPayment) (first : Bool) (m : ManualPayment)
    (hm : m ∈ l) (hc : m.is_credited = false) :
    (procFun l first m).status = MPStatus.completed := by
  induction l generalizing first with
  | nil => cases hm
  | cons r rest ih =>
    by_cases hrc : r.is_credited = true
    · have hmr : m ∈ rest := by
        rcases List.mem_cons.mp hm with rfl | h
        · rw [hrc] at hc; cases hc
        · exact h
      simpa [procFun, hrc] using ih first hmr
    · simp only [Bool.not_eq_true] at hrc
      by_cases him : m.id = r.id
      · cases first <;>
          simp only [procFun, hrc, him, if_true, if_false, Bool.false_eq_true] <;>
          exact procFun_keeps_completed _ _ _ rfl
      · have hmr : m ∈ rest := by
          rcases List.mem_cons.mp hm with rfl | h
          · exact absurd rfl him
          · exact h
        cases first <;>
          simp only [procFun, hrc, him, if_true, if_false, Bool.false_eq_true] <;>
          exact ih _ hmr

theorem procFun_untouched (l : List ManualPayment) (first : Bool) (m : ManualPayment)
    (h : ∀ r ∈ l, r.is_credited = false → ¬ m.id = r.id) :
    procFun l first m = m := by
  induction l generalizing first with
  | nil => rfl
  | cons r rest ih =>
    by_cases hrc : r.is_credited = true
    · simp only [procFun, hrc, if_true]
      exact ih _ fun x hx => h x (List.mem_cons_of_mem r hx)
    · simp only [Bool.not_eq_true] at hrc
      have hne : ¬ m.id = r.id := h r (List.mem_cons_self r rest) hrc
      cases first <;>
        simp only [procFun, hrc, hne, if_true, if_false, Bool.false_eq_true] <;>
        exact ih _ fun x hx => h x (List.mem_cons_of_mem r hx)

theorem findTxnSingle_mem (db : DB) (tid : Nat) (t : Txn)
    (h : findTxnSingle db tid = some t) :
    t ∈ db.transactions ∧ t.id = tid := by
  unfold findTxnSingle at h
  rcases hf : db.transactions.filter (fun x => decide (x.id = tid)) with _ | ⟨a, _ | ⟨b, l⟩⟩ <;>
    rw [hf] at h
  · cases h
  · have ha : a ∈ db.transactions.filter fun x => decide (x.id = tid) := by
      rw [hf]; exact List.mem_cons_self a []
    have hm := List.mem_filter.mp ha
    have hid : a.id = tid := of_decide_eq_true hm.2
    injection h with h2
    subst h2
    exact ⟨hm.1, hid⟩
  · cases h

theorem findTxnSingle_any (db : DB) (tid : Nat) (t : Txn)
    (h : findTxnSingle db tid = some t) :
    (db.transactions.any fun x => decide (x.id = tid)) = true := by
  obtain ⟨hm, hid⟩ := findTxnSingle_mem db tid t h
  exact List.any_eq_true.mpr ⟨t, hm, decide_eq_true hid⟩

theorem resolve_refund_eq (db : DB) (tid : Nat) (s : TxStatus) (t : Txn) (w : Wallet)
    (hs : s = TxStatus.rejected ∨ s = TxStatus.failed)
    (ht : findTxnSingle db tid = some t)
    (hw : db.wallets t.user_id = some w) :
    update_withdrawal_status_logic db tid s
      = (db.transactions.any fun x => decide (x.id = tid),
         setTxnStatus
           (db.updateWallet t.user_id fun w0 => { w0 with balance := w.balance + t.amount })
           tid s) := by
  have hnp : ¬ s = TxStatus.pending := by rcases hs with rfl | rfl <;> intro h <;> cases h
  unfold update_withdrawal_status_logic
  rw [if_neg hnp, if_pos hs]
  simp only [ht, hw]
  rfl

theorem resolve_abort_no_txn (db : DB) (tid : Nat) (s : TxStatus)
    (hs : s = TxStatus.rejected ∨ s = TxStatus.failed)
    (ht : findTxnSingle db tid = none) :
    update_withdrawal_status_logic db tid s = (false, db) := by
  have hnp : ¬ s = TxStatus.pending := by rcases hs with rfl | rfl <;> intro h <;> cases h
  unfold update_withdrawal_status_logic
  rw [if_neg hnp, if_pos hs]
  simp only [ht]

theorem resolve_abort_no_wallet (db : DB) (tid : Nat) (s : TxStatus) (t : Txn)
    (hs : s = TxStatus.rejected ∨ s = TxStatus.failed)
    (ht : findTxnSingle db tid = some t)
    (hw : db.wallets t.user_id = none) :
    update_withdrawal_status_logic db tid s = (false, db) := by
  have hnp : ¬ s = TxStatus.pending := by rcases hs with rfl | rfl <;> intro h <;> cases h
  unfold update_withdrawal_status_logic
  rw [if_neg hnp, if_pos hs]
  simp only [ht, hw]

theorem commission_cascade_referrer (db : DB) (u : Nat) (a : ℚ) (rid : Nat) (wr : Wallet)
    (hp : db.profiles u = some { referrer_id := some rid })
    (hw : db.wallets rid = some wr) :
    (commission_cascade db u a).wallets rid
        = some { wr with
            total_referral_earnings := wr.total_referral_earnings + a * (10 / 100)
            order_income := wr.order_income + a * (10 / 100) }
      ∧ (commission_cascade db u a).commissions
        = db.commissions ++
            [{ referrer_id := rid, referred_user_id := u,
               commission_amount := a * (10 / 100), investment_amount := a }] := by
  unfold commission_cascade
  rw [hp]
  constructor
  · show (db.updateWallet rid _).wallets rid = _
    rw [updateWallet_wallets, if_pos rfl, hw]
    rfl
  · rfl

theorem commission_cascade_no_referrer (db : DB) (u : Nat) (a : ℚ)
    (hp : db.profiles u = some { referrer_id := none }) :
    commission_cascade db u a = db := by
  unfold commission_cascade
  rw [hp]

theorem commission_cascade_no_profile (db : DB) (u : Nat) (a : ℚ)
    (hp : db.profiles u = none) :
    commission_cascade db u a = db := by
  unfold commission_cascade
  rw [hp]

theorem verify_razorpay_sigOk_eq (db : DB) (o p : String) (a : ℚ) (u : Nat) (w : Wallet)
    (hw : db.wallets u = some w) :
    verify_razorpay_payment db o p a u true
      = (true, completeTxns (increment_recharged_amount (commission_cascade db u a) u a) o p) := by
  have h2 : ((increment_recharged_amount (commission_cascade db u a) u a).wallets u).map
        (fun x => x.recharged_amount) = some (w.recharged_amount + a) := by
    rw [increment_recharged_amount_self, commission_cascade_recharged, hw]
    rfl
  obtain ⟨w3, hx⟩ : ∃ w3,
      (increment_recharged_amount (commission_cascade db u a) u a).wallets u = some w3 := by
    rcases hz : (increment_recharged_amount (commission_cascade db u a) u a).wallets u with _ | w3
    · rw [hz] at h2; cases h2
    · exact ⟨w3, rfl⟩
  have hx2 : (completeTxns (increment_recharged_amount (commission_cascade db u a) u a)
      o p).wallets u = some w3 := hx
  unfold verify_razorpay_payment
  rw [if_pos rfl]
  simp only [hx2]

theorem verify_razorpay_recharged (db : DB) (o p : String) (a : ℚ) (u : Nat) (w : Wallet)
    (hw : db.wallets u = some w) :
    ((verify_razorpay_payment db o p a u true).2.wallets u).map (fun x => x.recharged_amount)
      = some (w.recharged_amount + a) := by
  rw [verify_razorpay_sigOk_eq db o p a u w hw]
  show ((increment_recharged_amount (commission_cascade db u a) u a).wallets u).map
      (fun x => x.recharged_amount) = _
  rw [increment_recharged_amount_self, commission_cascade_recharged, hw]
  rfl

/-- C4: the bonus-claim operation is rejected whenever
`pending_referral_bonus <= 0`, leaving the store unchanged; otherwise it
zeroes `pending_referral_bonus`, adds the claimed amount to `balance`,
`total_referral_earnings` and `order_income`, and appends one completed
bonus-claim Transaction. -/
theorem C4_claim_bonus (db : DB) (u newTid now : Nat) (w : Wallet)
    (hw : db.wallets u = some w) :
    (w.pending_referral_bonus ≤ 0 → claim_referral_bonus db u newTid now = (false, db))
    ∧ (0 < w.pending_referral_bonus →
        (claim_referral_bonus db u newTid now).1 = true
        ∧ (claim_referral_bonus db u newTid now).2.wallets u
          = some { w with
              balance := w.balance + w.pending_referral_bonus
              pending_referral_bonus := 0
              total_referral_earnings := w.total_referral_earnings + w.pending_referral_bonus
              order_income := w.order_income + w.pending_referral_bonus }
        ∧ (claim_referral_bonus db u newTid now).2.transactions
          = db.transactions ++
              [{ id := newTid, user_id := u, amount := w.pending_referral_bonus, fee := 0,
                 type := TxType.bonusReferralSignup, status := TxStatus.completed,
                 created_at := now, payment_gateway_id := none }]) := by
  constructor
  · intro hle
    unfold claim_referral_bonus
    simp only [hw]
    rw [if_pos hle]
  · intro hpos
    unfold claim_referral_bonus
    simp only [hw]
    rw [if_neg (not_le.mpr hpos)]
    refine ⟨rfl, ?_, rfl⟩
    show (db.updateWallet u _).wallets u = _
    rw [updateWallet_wallets, if_pos rfl, hw]
    rfl

/-- C4 witness: user 6 of `dbW4` claims a pending bonus of 10. -/
theorem C4_witness :
    (claim_referral_bonus dbW4 6 1 0).1 = true
    ∧ (claim_referral_bonus dbW4 6 1 0).2.wallets 6
      = some { zeroWallet with
          balance := 10, pending_referral_bonus := 0,
          total_referral_earnings := 10, order_income := 10 } := by
  obtain ⟨h1, h2, h3⟩ :=
    (C4_claim_bonus dbW4 6 1 0 { zeroWallet with pending_referral_bonus := 10 } rfl).2
      (by norm_num)
  refine ⟨h1, ?_⟩
  rw [h2]
  simp [zeroWallet]

/-- C9: for a resolution to rejected or failed in which the transaction
fetch or the wallet fetch fails (zero matching rows, so the PostgREST
`.single()` call raises), the operation does not update the
transaction's status and returns an error with the store unchanged. -/
theorem C9_refund_failure_aborts (db : DB) (tid : Nat) (s : TxStatus)
    (hs : s = TxStatus.rejected ∨ s = TxStatus.failed) :
    (findTxnSingle db tid = none →
      update_withdrawal_status_logic db tid s = (false, db))
    ∧ ∀ t : Txn, findTxnSingle db tid = some t →
        db.wallets t.user_id = none →
        update_withdrawal_status_logic db tid s = (false, db) := by
  exact ⟨fun ht => resolve_abort_no_txn db tid s hs ht,
    fun t ht hw => resolve_abort_no_wallet db tid s t hs ht hw⟩

/-- C9 witness: in `dbC9` transaction 9 is pending but user 4 has no
wallet row; resolving it to failed aborts with the store unchanged. -/
theorem C9_witness :
    update_withdrawal_status_logic dbC9 9 TxStatus.failed = (false, dbC9) := by
  exact (C9_refund_failure_aborts dbC9 9 TxStatus.failed (Or.inr rfl)).2
    ⟨9, 4, 50, 6, TxType.withdrawal, TxStatus.pending, 0, none⟩ (by decide) rfl

/-- C10: when Razorpay signature verification fails, no wallet and no
commission row changes, every transaction carrying the gateway order id
(in particular the pending one) is marked failed, and a failure result
is returned. -/
theorem C10_sig_failure (db : DB) (o p : String) (a : ℚ) (u : Nat) (t : Txn)
    (hmem : t ∈ db.transactions)
    (hpg : t.payment_gateway_id = some o)
    (_hst : t.status = TxStatus.pending) :
    (verify_razorpay_payment db o p a u false).1 = false
    ∧ (verify_razorpay_payment db o p a u false).2.wallets = db.wallets
    ∧ (verify_razorpay_payment db o p a u false).2.commissions = db.commissions
    ∧ { t with status := TxStatus.failed }
        ∈ (verify_razorpay_payment db o p a u false).2.transactions := by
  have hres : verify_razorpay_payment db o p a u false = (false, markTxnsFailed db o) := by
    unfold verify_razorpay_payment
    rw [if_neg (by simp)]
  rw [hres]
  refine ⟨rfl, rfl, rfl, ?_⟩
  show _ ∈ db.transactions.map fun x =>
    if x.payment_gateway_id = some o then { x with status := TxStatus.failed } else x
  exact List.mem_map.mpr ⟨t, hmem, by rw [if_pos hpg]⟩

/-- C10 witness: in `dbC1` the pending transaction for order "ord1" is
marked failed by a signature-failing verification call, which changes no
wallet and no commission row. -/
theorem C10_witness :
    (verify_razorpay_payment dbC1 "ord1" "p" 100 5 false).1 = false
    ∧ (verify_razorpay_payment dbC1 "ord1" "p" 100 5 false).2.wallets = dbC1.wallets
    ∧ (verify_razorpay_payment dbC1 "ord1" "p" 100 5 false).2.commissions = dbC1.commissions
    ∧ ({ id := 1, user_id := 5, amount := 100, fee := 0, type := TxType.recharge,
         status := TxStatus.failed, created_at := 0,
         payment_gateway_id := some "ord1" } : Txn)
        ∈ (verify_razorpay_payment dbC1 "ord1" "p" 100 5 false).2.transactions := by
  exact C10_sig_failure dbC1 "ord1" "p" 100 5
    ⟨1, 5, 100, 0, TxType.recharge, TxStatus.pending, 0, some "ord1"⟩
    (by decide) rfl rfl

/-- C7 counterexample: in `dbC7` a pending withdrawal of 50 by user 4
(wallet balance 0, order_income 5) is resolved to rejected; the code
credits the 50 to `balance`, leaving `order_income` at 5 instead of
restoring it to 55 = its value before the withdrawal request. -/
theorem C7_counterexample :
    (((update_withdrawal_status_logic dbC7 9 TxStatus.rejected).2.wallets 4).map
        fun x => (x.balance, x.order_income)) = some (50, 5)
    ∧ (5 : ℚ) ≠ 5 + 50 := by
  have h := resolve_refund_eq dbC7 9 TxStatus.rejected
    ⟨9, 4, 50, 6, TxType.withdrawal, TxStatus.pending, 0, none⟩
    { zeroWallet with order_income := 5 } (Or.inl rfl) (by decide) rfl
  constructor
  · rw [h]
    simp only [setTxnStatus]
    rw [updateWallet_wallets]
    norm_num [dbC7, zeroWallet]
  · norm_num

/-- C7 (amended): resolving a withdrawal to rejected or failed credits
the withdrawn amount to the wallet's `balance` field; `order_income` is
unchanged by the resolution, so it does not return to its pre-request
value. -/
theorem C7_refund_to_balance (db : DB) (tid : Nat) (s : TxStatus) (t : Txn) (w : Wallet)
    (hs : s = TxStatus.rejected ∨ s = TxStatus.failed)
    (ht : findTxnSingle db tid = some t)
    (hw : db.wallets t.user_id = some w) :
    (((update_withdrawal_status_logic db tid s).2.wallets t.user_id).map
        fun x => (x.balance, x.order_income)) = some (w.balance + t.amount, w.order_income)
    ∧ (update_withdrawal_status_logic db tid s).1 = true := by
  rw [resolve_refund_eq db tid s t w hs ht hw]
  constructor
  · show ((db.updateWallet t.user_id _).wallets t.user_id).map _ = _
    rw [updateWallet_wallets, if_pos rfl, hw]
    rfl
  · exact findTxnSingle_any db tid t ht

/-- C7 witness: the amended statement evaluated on `dbC7`. -/
theorem C7_witness :
    (((update_withdrawal_status_logic dbC7 9 TxStatus.rejected).2.wallets 4).map
        fun x => (x.balance, x.order_income))
      = some (({ zeroWallet with order_income := 5 } : Wallet).balance + 50,
          ({ zeroWallet with order_income := 5 } : Wallet).order_income)
    ∧ (update_withdrawal_status_logic dbC7 9 TxStatus.rejected).1 = true := by
  exact C7_refund_to_balance dbC7 9 TxStatus.rejected
    ⟨9, 4, 50, 6, TxType.withdrawal, TxStatus.pending, 0, none⟩
    { zeroWallet with order_income := 5 } (Or.inl rfl) (by decide) rfl

/-- C8 counterexample: in `dbC8` transaction 9 is already terminal
(rejected, refund done, balance 100); re-resolving it to rejected is
accepted (success, no conflict error) and credits the wallet again,
balance 100 → 150: a double refund. -/
theorem C8_counterexample :
    (update_withdrawal_status_logic dbC8 9 TxStatus.rejected).1 = true
    ∧ (((update_withdrawal_status_logic dbC8 9 TxStatus.rejected).2.wallets 4).map
        fun x => x.balance) = some 150 := by
  have h := resolve_refund_eq dbC8 9 TxStatus.rejected
    ⟨9, 4, 50, 6, TxType.withdrawal, TxStatus.rejected, 0, none⟩
    { zeroWallet with balance := 100 } (Or.inl rfl) (by decide) rfl
  constructor
  · rw [h]
    decide
  · rw [h]
    simp only [setTxnStatus]
    rw [updateWallet_wallets]
    norm_num [dbC8, zeroWallet]

/-- C8 (amended): the resolve operation never inspects the current
status of the transaction, so resolving a transaction that is already in
a terminal state to rejected or failed succeeds again (no conflict
error) and performs the wallet credit again — repeated rejected/failed
resolutions refund repeatedly. -/
theorem C8_no_idempotency_check (db : DB) (tid : Nat) (s : TxStatus) (t : Txn) (w : Wallet)
    (hs : s = TxStatus.rejected ∨ s = TxStatus.failed)
    (ht : findTxnSingle db tid = some t)
    (_hterm : t.status ≠ TxStatus.pending)
    (hw : db.wallets t.user_id = some w) :
    (update_withdrawal_status_logic db tid s).1 = true
    ∧ (((update_withdrawal_status_logic db tid s).2.wallets t.user_id).map
        fun x => x.balance) = some (w.balance + t.amount) := by
  rw [resolve_refund_eq db tid s t w hs ht hw]
  constructor
  · exact findTxnSingle_any db tid t ht
  · show ((db.updateWallet t.user_id _).wallets t.user_id).map _ = _
    rw [updateWallet_wallets, if_pos rfl, hw]
    rfl

/-- C8 witness: the amended statement evaluated on `dbC8`. -/
theorem C8_witness :
    (update_withdrawal_status_logic dbC8 9 TxStatus.rejected).1 = true
    ∧ (((update_withdrawal_status_logic dbC8 9 TxStatus.rejected).2.wallets 4).map
        fun x => x.balance)
      = some (({ zeroWallet with balance := 100 } : Wallet).balance + 50) := by
  exact C8_no_idempotency_check dbC8 9 TxStatus.rejected
    ⟨9, 4, 50, 6, TxType.withdrawal, TxStatus.rejected, 0, none⟩
    { zeroWallet with balance := 100 } (Or.inl rfl) (by decide) (by decide) rfl

theorem withdrawal_insufficient (db : DB) (u : Nat) (amount : ℚ)
    (startOfDay now newTid : Nat) (ok : Bool) (w : Wallet)
    (hpos : 0 < amount)
    (hday : (todaysWithdrawals db u startOfDay).length < 2)
    (hinv : hasInvestment db u = true)
    (hw : db.wallets u = some w)
    (hlt : w.order_income < round2 amount) :
    handle_withdrawal_request db u amount startOfDay now newTid ok = (false, db) := by
  unfold handle_withdrawal_request
  rw [if_neg (not_le.mpr hpos), if_neg (not_le.mpr hday), if_pos hinv]
  simp only [hw]
  rw [if_pos hlt]

theorem withdrawal_success_eq (db : DB) (u : Nat) (amount : ℚ)
    (startOfDay now newTid : Nat) (w : Wallet)
    (hpos : 0 < amount)
    (hday : (todaysWithdrawals db u startOfDay).length < 2)
    (hinv : hasInvestment db u = true)
    (hw : db.wallets u = some w)
    (hge : round2 amount ≤ w.order_income) :
    handle_withdrawal_request db u amount startOfDay now newTid true
      = (true,
          { db.updateWallet u
              (fun w0 => { w0 with order_income := w.order_income - round2 amount }) with
            transactions := db.transactions ++
              [{ id := newTid, user_id := u, amount := round2 amount,
                 fee := round2 (amount * (12 / 100)), type := TxType.withdrawal,
                 status := TxStatus.pending, created_at := now,
                 payment_gateway_id := none }] }) := by
  unfold handle_withdrawal_request
  rw [if_neg (not_le.mpr hpos), if_neg (not_le.mpr hday), if_pos hinv]
  simp only [hw]
  rw [if_neg (not_lt.mpr hge)]
  simp only [if_true]
  rfl

theorem withdrawal_success_proj (db : DB) (u : Nat) (amount : ℚ)
    (startOfDay now newTid : Nat) (w : Wallet)
    (hpos : 0 < amount)
    (hday : (todaysWithdrawals db u startOfDay).length < 2)
    (hinv : hasInvestment db u = true)
    (hw : db.wallets u = some w)
    (hge : round2 amount ≤ w.order_income) :
    (handle_withdrawal_request db u amount startOfDay now newTid true).1 = true
    ∧ (((handle_withdrawal_request db u amount startOfDay now newTid true).2.wallets u).map
        fun x => x.order_income) = some (w.order_income - round2 amount)
    ∧ (handle_withdrawal_request db u amount startOfDay now newTid true).2.transactions
      = db.transactions ++
          [{ id := newTid, user_id := u, amount := round2 amount,
             fee := round2 (amount * (12 / 100)), type := TxType.withdrawal,
             status := TxStatus.pending, created_at := now, payment_gateway_id := none }] := by
  rw [withdrawal_success_eq db u amount startOfDay now newTid w hpos hday hinv hw hge]
  refine ⟨rfl, ?_, rfl⟩
  show ((db.updateWallet u fun w0 =>
      { w0 with order_income := w.order_income - round2 amount }).wallets u).map
      (fun x => x.order_income) = _
  rw [updateWallet_wallets, if_pos rfl, hw]
  rfl

theorem withdrawal_insert_fail_eq (db : DB) (u : Nat) (amount : ℚ)
    (startOfDay now newTid : Nat) (w : Wallet)
    (hpos : 0 < amount)
    (hday : (todaysWithdrawals db u startOfDay).length < 2)
    (hinv : hasInvestment db u = true)
    (hw : db.wallets u = some w)
    (hge : round2 amount ≤ w.order_income) :
    handle_withdrawal_request db u amount startOfDay now newTid false
      = (false,
          (db.updateWallet u
              fun w0 => { w0 with order_income := w.order_income - round2 amount }).updateWallet u
            fun w0 => { w0 with order_income := w.order_income }) := by
  unfold handle_withdrawal_request
  rw [if_neg (not_le.mpr hpos), if_neg (not_le.mpr hday), if_pos hinv]
  simp only [hw]
  rw [if_neg (not_lt.mpr hge)]
  simp only [Bool.false_eq_true, if_false]

/-- C5 counterexample: user 3 of `dbC5` (order_income 10) requests a
withdrawal of 0.013; the code deducts `round(0.013, 2) = 0.01`, leaving
order_income 9.99, not `10 - 0.013 = 9.987` as the claim's "decreases by
exactly the requested amount" requires. -/
theorem C5_counterexample :
    (((handle_withdrawal_request dbC5 3 (13 / 1000) 0 1 11 true).2.wallets 3).map
        fun x => x.order_income) = some (999 / 100)
    ∧ (999 / 100 : ℚ) ≠ 10 - 13 / 1000 := by
  have hr2 : round2 (13 / 1000 : ℚ) = 1 / 100 := by
    norm_num [round2, round_eq]
  have h := withdrawal_success_proj dbC5 3 (13 / 1000) 0 1 11
    { zeroWallet with order_income := 10 }
    (by norm_num) (by decide) (by decide) rfl (by rw [hr2]; norm_num [zeroWallet])
  constructor
  · rw [h.2.1, hr2]
    norm_num [zeroWallet]
  · norm_num

/-- C5 (amended): after validation, the daily limit, and the
investment-eligibility gate, the request is rejected iff `order_income <
round(amount, 2)` (store unchanged); otherwise `order_income` decreases
by exactly `round(amount, 2)` — the 12% fee is not added on top — and a
pending withdrawal Transaction is recorded with amount `round(amount, 2)`
and fee `round(amount * 0.12, 2)`. -/
theorem C5_withdrawal_request (db : DB) (u : Nat) (amount : ℚ)
    (startOfDay now newTid : Nat) (w : Wallet)
    (hpos : 0 < amount)
    (hday : (todaysWithdrawals db u startOfDay).length < 2)
    (hinv : hasInvestment db u = true)
    (hw : db.wallets u = some w) :
    (w.order_income < round2 amount →
      handle_withdrawal_request db u amount startOfDay now newTid true = (false, db))
    ∧ (round2 amount ≤ w.order_income →
        (handle_withdrawal_request db u amount startOfDay now newTid true).1 = true
        ∧ (((handle_withdrawal_request db u amount startOfDay now newTid true).2.wallets u).map
            fun x => x.order_income) = some (w.order_income - round2 amount)
        ∧ (handle_withdrawal_request db u amount startOfDay now newTid true).2.transactions
          = db.transactions ++
              [{ id := newTid, user_id := u, amount := round2 amount,
                 fee := round2 (amount * (12 / 100)), type := TxType.withdrawal,
                 status := TxStatus.pending, created_at := now,
                 payment_gateway_id := none }]) := by
  exact ⟨fun hlt => withdrawal_insufficient db u amount startOfDay now newTid true w
      hpos hday hinv hw hlt,
    fun hge => withdrawal_success_proj db u amount startOfDay now newTid w
      hpos hday hinv hw hge⟩

/-- C5 witness: user 3 of `dbW5` (order_income 500) withdraws 100. -/
theorem C5_witness :
    (handle_withdrawal_request dbW5 3 100 0 1 11 true).1 = true
    ∧ (((handle_withdrawal_request dbW5 3 100 0 1 11 true).2.wallets 3).map
        fun x => x.order_income)
      = some (({ zeroWallet with order_income := 500 } : Wallet).order_income - round2 100)
    ∧ (handle_withdrawal_request dbW5 3 100 0 1 11 true).2.transactions
      = dbW5.transactions ++
          [{ id := 11, user_id := 3, amount := round2 100,
             fee := round2 (100 * (12 / 100)), type := TxType.withdrawal,
             status := TxStatus.pending, created_at := 1, payment_gateway_id := none }] := by
  exact (C5_withdrawal_request dbW5 3 100 0 1 11 { zeroWallet with order_income := 500 }
    (by norm_num) (by decide) (by decide) rfl).2 (by norm_num [round2, round_eq, zeroWallet])

/-- C6: when the debit of `order_income` succeeded but recording the
pending Transaction fails, the compensating write restores
`order_income` to its pre-debit value before the error is returned, so a
failed request leaves the wallet (and the transaction list) unchanged. -/
theorem C6_insert_failure_restores (db : DB) (u : Nat) (amount : ℚ)
    (startOfDay now newTid : Nat) (w : Wallet)
    (hpos : 0 < amount)
    (hday : (todaysWithdrawals db u startOfDay).length < 2)
    (hinv : hasInvestment db u = true)
    (hw : db.wallets u = some w)
    (hge : round2 amount ≤ w.order_income) :
    (handle_withdrawal_request db u amount startOfDay now newTid false).1 = false
    ∧ (handle_withdrawal_request db u amount startOfDay now newTid false).2.wallets u = some w
    ∧ (handle_withdrawal_request db u amount startOfDay now newTid false).2.transactions
        = db.transactions := by
  rw [withdrawal_insert_fail_eq db u amount startOfDay now newTid w hpos hday hinv hw hge]
  refine ⟨rfl, ?_, rfl⟩
  show (((db.updateWallet u fun w0 =>
      { w0 with order_income := w.order_income - round2 amount }).updateWallet u)
      fun w0 => { w0 with order_income := w.order_income }).wallets u = some w
  rw [updateWallet_wallets, if_pos rfl, updateWallet_wallets, if_pos rfl, hw]
  rfl

/-- C6 witness: user 3 of `dbW5` withdraws 100 but the transaction
insert fails; the wallet is restored. -/
theorem C6_witness :
    (handle_withdrawal_request dbW5 3 100 0 1 11 false).1 = false
    ∧ (handle_withdrawal_request dbW5 3 100 0 1 11 false).2.wallets 3
      = some { zeroWallet with order_income := 500 }
    ∧ (handle_withdrawal_request dbW5 3 100 0 1 11 false).2.transactions
      = dbW5.transactions := by
  exact C6_insert_failure_restores dbW5 3 100 0 1 11 { zeroWallet with order_income := 500 }
    (by norm_num) (by decide) (by decide) rfl (by norm_num [round2, round_eq, zeroWallet])

theorem creditManualPayment_wallets (db : DB) (i : Nat) :
    (creditManualPayment db i).wallets = db.wallets := rfl

theorem creditManualPayment_commissions (db : DB) (i : Nat) :
    (creditManualPayment db i).commissions = db.commissions := rfl

theorem manual_verify_eq (db : DB) (utr : String) (l : List ManualPayment)
    (hgrp : pendingForUtr db utr = l) (hne : l ≠ []) :
    admin_verify_manual_payment db utr = (true, processManualRecords db false l) := by
  unfold admin_verify_manual_payment
  simp only [hgrp]
  cases l with
  | nil => exact absurd rfl hne
  | cons a l2 => rfl

theorem manual_verify_empty (db : DB) (utr : String)
    (h : pendingForUtr db utr = []) :
    admin_verify_manual_payment db utr = (false, db) := by
  unfold admin_verify_manual_payment
  simp only [h]
  rfl

theorem verify_razorpay_sigOk_wallets (db : DB) (o p : String) (a : ℚ) (u : Nat) :
    (verify_razorpay_payment db o p a u true).2.wallets
      = (increment_recharged_amount (commission_cascade db u a) u a).wallets := by
  unfold verify_razorpay_payment
  rw [if_pos rfl]
  rcases hx : (increment_recharged_amount (commission_cascade db u a) u a).wallets u with _ | w3
  · have hx2 : (completeTxns (increment_recharged_amount (commission_cascade db u a) u a)
        o p).wallets u = none := hx
    simp only [hx2]
    rfl
  · have hx2 : (completeTxns (increment_recharged_amount (commission_cascade db u a) u a)
        o p).wallets u = some w3 := hx
    simp only [hx2]
    rfl

theorem verify_razorpay_sigOk_commissions (db : DB) (o p : String) (a : ℚ) (u : Nat) :
    (verify_razorpay_payment db o p a u true).2.commissions
      = (commission_cascade db u a).commissions := by
  unfold verify_razorpay_payment
  rw [if_pos rfl]
  rcases hx : (increment_recharged_amount (commission_cascade db u a) u a).wallets u with _ | w3
  · have hx2 : (completeTxns (increment_recharged_amount (commission_cascade db u a) u a)
        o p).wallets u = none := hx
    simp only [hx2]
    rfl
  · have hx2 : (completeTxns (increment_recharged_amount (commission_cascade db u a) u a)
        o p).wallets u = some w3 := hx
    simp only [hx2]
    rfl

theorem verify_razorpay_twice (db : DB) (o p1 p2 : String) (a : ℚ) (u : Nat) (w : Wallet)
    (hw : db.wallets u = some w) :
    (((verify_razorpay_payment (verify_razorpay_payment db o p1 a u true).2
        o p2 a u true).2.wallets u).map fun x => x.recharged_amount)
      = some (w.recharged_amount + a + a) := by
  have h1 : ((verify_razorpay_payment db o p1 a u true).2.wallets u).map
      (fun x => x.recharged_amount) = some (w.recharged_amount + a) :=
    verify_razorpay_recharged db o p1 a u w hw
  obtain ⟨w1, hw1, hrech⟩ := Option.map_eq_some'.mp h1
  have h2 := verify_razorpay_recharged (verify_razorpay_payment db o p1 a u true).2
    o p2 a u w1 hw1
  rw [h2, hrech]

/-- C1 counterexample: in `dbC1` order "ord1" over 100 for user 5 is
reported twice to the Razorpay verification operation; both deliveries
verify, and `recharged_amount` ends at 200 — two units of the payment
amount, not exactly one as the claim requires. -/
theorem C1_counterexample :
    (((verify_razorpay_payment (verify_razorpay_payment dbC1 "ord1" "pay1" 100 5 true).2
        "ord1" "pay2" 100 5 true).2.wallets 5).map fun x => x.recharged_amount) = some 200
    ∧ (200 : ℚ) ≠ 100 := by
  have h := verify_razorpay_twice dbC1 "ord1" "pay1" "pay2" 100 5 zeroWallet rfl
  refine ⟨?_, by norm_num⟩
  rw [h]
  norm_num [zeroWallet]

/-- C1 (amended): one manual verification call on a group of pending,
uncredited duplicates credits `recharged_amount` exactly once — by the
first record's amount — and a repeated call finds no pending record and
leaves the store unchanged; the Razorpay verification operation instead
credits on every successfully verified call, so N duplicate Razorpay
notifications increment `recharged_amount` by N times the amount. -/
theorem C1_manual_once_razorpay_per_call :
    (∀ (db : DB) (utr : String) (u : Nat) (w : Wallet) (r : ManualPayment)
        (rest : List ManualPayment),
      pendingForUtr db utr = r :: rest →
      (∀ x ∈ r :: rest, x.is_credited = false ∧ x.user_id = u) →
      db.wallets u = some w →
      (admin_verify_manual_payment db utr).1 = true
      ∧ (((admin_verify_manual_payment db utr).2.wallets u).map fun x => x.recharged_amount)
          = some (w.recharged_amount + r.amount)
      ∧ admin_verify_manual_payment (admin_verify_manual_payment db utr).2 utr
          = (false, (admin_verify_manual_payment db utr).2))
    ∧ ∀ (db : DB) (o p : String) (a : ℚ) (u : Nat) (w : Wallet),
        db.wallets u = some w →
        (((verify_razorpay_payment db o p a u true).2.wallets u).map
            fun x => x.recharged_amount) = some (w.recharged_amount + a) := by
  constructor
  · intro db utr u w r rest hgrp hall hw
    have hr : r.is_credited = false := (hall r (List.mem_cons_self r rest)).1
    have hu : r.user_id = u := (hall r (List.mem_cons_self r rest)).2
    have heq0 := manual_verify_eq db utr (r :: rest) hgrp (by simp)
    have hpend2 : pendingForUtr (admin_verify_manual_payment db utr).2 utr = [] := by
      rw [heq0]
      show pendingForUtr (processManualRecords db false (r :: rest)) utr = []
      unfold pendingForUtr
      rw [pmr_manual_payments, List.filter_eq_nil_iff]
      intro m' hm'
      obtain ⟨m, hmdb, rfl⟩ := List.mem_map.mp hm'
      intro hp
      obtain ⟨hutr', hpend'⟩ := of_decide_eq_true hp
      have hmutr : m.utr_number = utr := by
        rw [← procFun_utr (r :: rest) false m]
        exact hutr'
      have hmst : m.status = MPStatus.pending := by
        rcases procFun_status (r :: rest) false m with h | h
        · rw [h] at hpend'
          exact hpend'
        · rw [h] at hpend'
          cases hpend'
      have hmem : m ∈ pendingForUtr db utr :=
        List.mem_filter.mpr ⟨hmdb, decide_eq_true ⟨hmutr, hmst⟩⟩
      rw [hgrp] at hmem
      have hmc : m.is_credited = false := (hall m hmem).1
      have hdone := procFun_completes (r :: rest) false m hmem hmc
      rw [hdone] at hpend'
      cases hpend'
    refine ⟨by rw [heq0], ?_, manual_verify_empty _ utr hpend2⟩
    rw [heq0]
    show ((processManualRecords db false (r :: rest)).wallets u).map
        (fun x => x.recharged_amount) = _
    rw [pmr_credit_head db r rest hr, pmr_true_wallets, hu,
      increment_recharged_amount_self, commission_cascade_recharged,
      creditManualPayment_wallets, hw]
    rfl
  · intro db o p a u w hw
    exact verify_razorpay_recharged db o p a u w hw

/-- C1 witness: the amended statement evaluated on `dbW1` (two
uncredited duplicates of UTR "U1") and on a single verified Razorpay
event of 55 for user 7. -/
theorem C1_witness :
    ((admin_verify_manual_payment dbW1 "U1").1 = true
      ∧ (((admin_verify_manual_payment dbW1 "U1").2.wallets 7).map fun x => x.recharged_amount)
          = some (zeroWallet.recharged_amount
              + (⟨1, 7, 100, "U1", MPStatus.pending, false⟩ : ManualPayment).amount)
      ∧ admin_verify_manual_payment (admin_verify_manual_payment dbW1 "U1").2 "U1"
          = (false, (admin_verify_manual_payment dbW1 "U1").2))
    ∧ (((verify_razorpay_payment dbW1 "o" "p" 55 7 true).2.wallets 7).map
        fun x => x.recharged_amount) = some (zeroWallet.recharged_amount + 55) := by
  constructor
  · exact C1_manual_once_razorpay_per_call.1 dbW1 "U1" 7 zeroWallet
      ⟨1, 7, 100, "U1", MPStatus.pending, false⟩
      [⟨2, 7, 100, "U1", MPStatus.pending, false⟩] (by decide) (by decide) rfl
  · exact C1_manual_once_razorpay_per_call.2 dbW1 "o" "p" 55 7 zeroWallet rfl

/-- C2 counterexample: in `dbC2` the pending group for UTR "UTR2" holds
a record already flagged `is_credited` (id 1) and an uncredited one
(id 2); the operation still credits the wallet (recharged_amount 0 →
100, not 0) and leaves the credited record pending instead of marking
every remaining pending record completed. -/
theorem C2_counterexample :
    (admin_verify_manual_payment dbC2 "UTR2").1 = true
    ∧ (((admin_verify_manual_payment dbC2 "UTR2").2.wallets 7).map fun x => x.recharged_amount)
        = some 100
    ∧ (100 : ℚ) ≠ 0
    ∧ (admin_verify_manual_payment dbC2 "UTR2").2.manual_payments
        = [⟨1, 7, 100, "UTR2", MPStatus.pending, true⟩,
           ⟨2, 7, 100, "UTR2", MPStatus.completed, true⟩] := by
  have heq : admin_verify_manual_payment dbC2 "UTR2"
      = (true, increment_recharged_amount
          (commission_cascade (creditManualPayment dbC2 2) 7 100) 7 100) := by
    rw [manual_verify_eq dbC2 "UTR2"
      [⟨1, 7, 100, "UTR2", MPStatus.pending, true⟩,
       ⟨2, 7, 100, "UTR2", MPStatus.pending, false⟩] (by decide) (by decide)]
    exact rfl
  refine ⟨by rw [heq], ?_, by norm_num, ?_⟩
  · rw [heq]
    show ((increment_recharged_amount
        (commission_cascade (creditManualPayment dbC2 2) 7 100) 7 100).wallets 7).map
        (fun x => x.recharged_amount) = some 100
    rw [increment_recharged_amount_self, commission_cascade_recharged,
      creditManualPayment_wallets]
    norm_num [dbC2, zeroWallet]
  · rw [heq]
    decide

/-- C2 (corrected/amended): the manual-payment credit operation tests
`is_credited` record by record, not group-wide: records already flagged
`is_credited` are skipped without any update (they remain pending), the
presence of such a record does not settle the group — the first
uncredited pending record still triggers the wallet credit — and the
operation returns its generic success outcome. -/
theorem C2_credited_records_skipped (db : DB) (utr : String) (u : Nat) (w : Wallet)
    (pre : List ManualPayment) (r : ManualPayment) (rest : List ManualPayment)
    (hgrp : pendingForUtr db utr = pre ++ r :: rest)
    (hpre : ∀ x ∈ pre, x.is_credited = true)
    (hr : r.is_credited = false)
    (hu : r.user_id = u)
    (hw : db.wallets u = some w)
    (hnd : (db.manual_payments.map fun m => m.id).Nodup) :
    (admin_verify_manual_payment db utr).1 = true
    ∧ (((admin_verify_manual_payment db utr).2.wallets u).map fun x => x.recharged_amount)
        = some (w.recharged_amount + r.amount)
    ∧ ∀ m ∈ pre, m ∈ (admin_verify_manual_payment db utr).2.manual_payments := by
  have heq0 := manual_verify_eq db utr (pre ++ r :: rest) hgrp (by simp)
  refine ⟨by rw [heq0], ?_, ?_⟩
  · rw [heq0]
    show ((processManualRecords db false (pre ++ r :: rest)).wallets u).map
        (fun x => x.recharged_amount) = _
    rw [pmr_skip_credited pre (r :: rest) db hpre, pmr_credit_head db r rest hr,
      pmr_true_wallets, hu, increment_recharged_amount_self, commission_cascade_recharged,
      creditManualPayment_wallets, hw]
    rfl
  · intro m hm
    have hmgrp : m ∈ pendingForUtr db utr := by
      rw [hgrp]
      exact List.mem_append_left _ hm
    have hmdb : m ∈ db.manual_payments := List.mem_of_mem_filter hmgrp
    have hF : procFun (pre ++ r :: rest) false m = m := by
      apply procFun_untouched
      intro x hx hxc hid
      have hxgrp : x ∈ pendingForUtr db utr := by
        rw [hgrp]
        exact hx
      have hxdb : x ∈ db.manual_payments := List.mem_of_mem_filter hxgrp
      have hmx : m = x := List.inj_on_of_nodup_map hnd hmdb hxdb hid
      rw [hmx] at hm
      have := hpre x hm
      rw [this] at hxc
      cases hxc
    rw [heq0]
    show m ∈ (processManualRecords db false (pre ++ r :: rest)).manual_payments
    rw [pmr_manual_payments]
    exact List.mem_map.mpr ⟨m, hmdb, hF⟩

/-- C2 witness: the amended statement evaluated on `dbC2`. -/
theorem C2_witness :
    (admin_verify_manual_payment dbC2 "UTR2").1 = true
    ∧ (((admin_verify_manual_payment dbC2 "UTR2").2.wallets 7).map fun x => x.recharged_amount)
        = some (zeroWallet.recharged_amount
            + (⟨2, 7, 100, "UTR2", MPStatus.pending, false⟩ : ManualPayment).amount)
    ∧ ∀ m ∈ [(⟨1, 7, 100, "UTR2", MPStatus.pending, true⟩ : ManualPayment)],
        m ∈ (admin_verify_manual_payment dbC2 "UTR2").2.manual_payments := by
  exact C2_credited_records_skipped dbC2 "UTR2" 7 zeroWallet
    [⟨1, 7, 100, "UTR2", MPStatus.pending, true⟩]
    ⟨2, 7, 100, "UTR2", MPStatus.pending, false⟩ []
    (by decide) (by decide) rfl rfl rfl (by decide)

/-- C3: a first-time credit of amount A by a user with a referrer
increases the referrer's `order_income` and `total_referral_earnings`
each by exactly 0.10 * A and appends exactly one commission row, on both
the Razorpay path and the manual path; a user with no referrer never
produces a commission row on either path. -/
theorem C3_commission_exact :
    (∀ (db : DB) (o p : String) (A : ℚ) (u rid : Nat) (wr : Wallet),
      db.profiles u = some { referrer_id := some rid } →
      db.wallets rid = some wr →
      (((verify_razorpay_payment db o p A u true).2.wallets rid).map
          fun x => (x.order_income, x.total_referral_earnings))
        = some (wr.order_income + A * (10 / 100),
            wr.total_referral_earnings + A * (10 / 100))
      ∧ (verify_razorpay_payment db o p A u true).2.commissions
        = db.commissions ++
            [{ referrer_id := rid, referred_user_id := u,
               commission_amount := A * (10 / 100), investment_amount := A }])
    ∧ (∀ (db : DB) (o p : String) (A : ℚ) (u : Nat),
        db.profiles u = some { referrer_id := none } →
        (verify_razorpay_payment db o p A u true).2.commissions = db.commissions)
    ∧ (∀ (db : DB) (utr : String) (u rid : Nat) (wr : Wallet) (r : ManualPayment)
        (rest : List ManualPayment),
        pendingForUtr db utr = r :: rest →
        r.is_credited = false →
        r.user_id = u →
        db.profiles u = some { referrer_id := some rid } →
        db.wallets rid = some wr →
        (((admin_verify_manual_payment db utr).2.wallets rid).map
            fun x => (x.order_income, x.total_referral_earnings))
          = some (wr.order_income + r.amount * (10 / 100),
              wr.total_referral_earnings + r.amount * (10 / 100))
        ∧ (admin_verify_manual_payment db utr).2.commissions
          = db.commissions ++
              [{ referrer_id := rid, referred_user_id := u,
                 commission_amount := r.amount * (10 / 100),
                 investment_amount := r.amount }])
    ∧ ∀ (db : DB) (utr : String) (u : Nat) (r : ManualPayment)
        (rest : List ManualPayment),
        pendingForUtr db utr = r :: rest →
        r.is_credited = false →
        r.user_id = u →
        db.profiles u = some { referrer_id := none } →
        (admin_verify_manual_payment db utr).2.commissions = db.commissions := by
  refine ⟨?_, ?_, ?_, ?_⟩
  · intro db o p A u rid wr hp hwr
    constructor
    · rw [verify_razorpay_sigOk_wallets]
      rw [increment_recharged_amount_proj (commission_cascade db u A) u A
        (fun x => (x.order_income, x.total_referral_earnings)) (fun w0 q => rfl) rid]
      rw [(commission_cascade_referrer db u A rid wr hp hwr).1]
      rfl
    · rw [verify_razorpay_sigOk_commissions,
        (commission_cascade_referrer db u A rid wr hp hwr).2]
  · intro db o p A u hp
    rw [verify_razorpay_sigOk_commissions, commission_cascade_no_referrer db u A hp]
  · intro db utr u rid wr r rest hgrp hr hu hp hwr
    have heq0 := manual_verify_eq db utr (r :: rest) hgrp (by simp)
    constructor
    · rw [heq0]
      show ((processManualRecords db false (r :: rest)).wallets rid).map
          (fun x => (x.order_income, x.total_referral_earnings)) = _
      rw [pmr_credit_head db r rest hr, pmr_true_wallets, hu]
      rw [increment_recharged_amount_proj
        (commission_cascade (creditManualPayment db r.id) u r.amount) u r.amount
        (fun x => (x.order_income, x.total_referral_earnings)) (fun w0 q => rfl) rid]
      rw [(commission_cascade_referrer (creditManualPayment db r.id) u r.amount rid wr
        hp hwr).1]
      rfl
    · rw [heq0]
      show (processManualRecords db false (r :: rest)).commissions = _
      rw [pmr_credit_head db r rest hr, pmr_true_commissions, hu,
        increment_recharged_amount_commissions,
        (commission_cascade_referrer (creditManualPayment db r.id) u r.amount rid wr
          hp hwr).2,
        creditManualPayment_commissions]
  · intro db utr u r rest hgrp hr hu hp
    have heq0 := manual_verify_eq db utr (r :: rest) hgrp (by simp)
    rw [heq0]
    show (processManualRecords db false (r :: rest)).commissions = _
    rw [pmr_credit_head db r rest hr, pmr_true_commissions, hu,
      increment_recharged_amount_commissions,
      commission_cascade_no_referrer (creditManualPayment db r.id) u r.amount hp,
      creditManualPayment_commissions]

/-- C3 witness: in `dbW3` user 2 (referred by user 1) recharges 1000 via
the Razorpay path and via the manual path; user 1 earns 1000 * 0.10 on
each and one commission row per credit is appended. -/
theorem C3_witness :
    ((((verify_razorpay_payment dbW3 "o" "p" 1000 2 true).2.wallets 1).map
        fun x => (x.order_income, x.total_referral_earnings))
      = some (zeroWallet.order_income + 1000 * (10 / 100),
          zeroWallet.total_referral_earnings + 1000 * (10 / 100))
      ∧ (verify_razorpay_payment dbW3 "o" "p" 1000 2 true).2.commissions
        = dbW3.commissions ++
            [{ referrer_id := 1, referred_user_id := 2,
               commission_amount := 1000 * (10 / 100), investment_amount := 1000 }])
    ∧ (admin_verify_manual_payment dbW3 "U3").2.commissions
        = dbW3.commissions ++
            [{ referrer_id := 1, referred_user_id := 2,
               commission_amount :=
                 (⟨1, 2, 1000, "U3", MPStatus.pending, false⟩ : ManualPayment).amount
                   * (10 / 100),
               investment_amount :=
                 (⟨1, 2, 1000, "U3", MPStatus.pending, false⟩ : ManualPayment).amount }] := by
  constructor
  · exact C3_commission_exact.1 dbW3 "o" "p" 1000 2 1 zeroWallet rfl rfl
  · exact (C3_commission_exact.2.2.1 dbW3 "U3" 2 1 zeroWallet
      ⟨1, 2, 1000, "U3", MPStatus.pending, false⟩ [] (by decide) rfl rfl rfl rfl).2

end VoltBack
